import Mathlib

/-!
Verification of the gloss segmenters and Anki CSV exporters of the mag-utils
repository.

Go strings are modelled as lists of characters (`GoStr`); Go's `log.Fatal`
(process exit) is modelled by `Option`/`Except` error results.  The handful of
anchored regular expressions used by the tools are modelled by explicit
character-list matchers that follow Go's (RE2) leftmost-first submatch
semantics for those concrete patterns.
-/

set_option maxRecDepth 20000

/-- Go strings, modelled as lists of characters. -/
abbrev GoStr := List Char

/-- Embed a Lean string literal as a Go string. -/
def gs (s : String) : GoStr := s.data

/-- Unicode separator characters (category Z), as matched by Go regexp `\pZ`:
Zs (U+0020, U+00A0, U+1680, U+2000..U+200A, U+202F, U+205F, U+3000),
Zl (U+2028) and Zp (U+2029). -/
def isZ (c : Char) : Bool :=
  c.toNat == 0x20 || c.toNat == 0xA0 || c.toNat == 0x1680 ||
  (decide (0x2000 ≤ c.toNat) && decide (c.toNat ≤ 0x200A)) ||
  c.toNat == 0x2028 || c.toNat == 0x2029 || c.toNat == 0x202F ||
  c.toNat == 0x205F || c.toNat == 0x3000

/-- Go `unicode.IsSpace` (the Unicode White_Space property), as used by
`strings.TrimSpace`: the category-Z characters plus TAB, LF, VT, FF, CR and
U+0085. -/
def isWhiteSpace (c : Char) : Bool :=
  c == '\t' || c == '\n' || c == '\u000B' || c == '\u000C' || c == '\r' ||
  c == '\u0085' || isZ c

/-- Drop the longest prefix of characters satisfying `p` (List.dropWhile,
restated locally so its small lemmas are self-contained). -/
def dropW (p : Char → Bool) : GoStr → GoStr
  | [] => []
  | c :: cs => if p c then dropW p cs else c :: cs

/-- Take the longest prefix of characters satisfying `p`. -/
def takeW (p : Char → Bool) : GoStr → GoStr
  | [] => []
  | c :: cs => if p c then c :: takeW p cs else []

/-- Go `strings.TrimSpace`: drop Unicode whitespace from both ends. -/
def trimSpace (s : GoStr) : GoStr := (dropW isWhiteSpace ((dropW isWhiteSpace s).reverse)).reverse

/-- Split at every `;` character (worker for `semiSplit`). -/
def splitOnSemi : GoStr → List GoStr
  | [] => [[]]
  | c :: cs =>
    match splitOnSemi cs with
    | [] => [[c]]
    | p :: ps => if c = ';' then [] :: p :: ps else (c :: p) :: ps

/-- Drop a trailing run of category-Z characters. -/
def trimZRight (s : GoStr) : GoStr := (dropW isZ s.reverse).reverse

/-- Trim the category-Z runs the separator pattern consumes from the pieces
after the first: each loses its leading Z run (the `\pZ*` after the `;`), and
each but the last also loses its trailing Z run (the `\pZ*` before the next
`;`). -/
def trimRest : List GoStr → List GoStr
  | [] => []
  | [p] => [dropW isZ p]
  | p :: ps => trimZRight (dropW isZ p) :: trimRest ps

/-- Model of `reSemicolon.Split(gloss, -1)` with `reSemicolon = \pZ*;\pZ*`:
each match holds exactly one `;` together with the category-Z runs adjacent to
it, so the split pieces are the `;`-separated chunks with the Z runs at the
separator boundaries removed (the first piece keeps its leading run and the
last keeps its trailing run). -/
def semiSplit (s : GoStr) : List GoStr :=
  match splitOnSemi s with
  | [] => []
  | [p] => [p]
  | p :: ps => trimZRight p :: trimRest ps

/-- The alternation `(acc|gen|dat)` tried at the head of a string; the three
branches start with distinct characters, so Go's leftmost-first preference
order is immaterial here. -/
def tryCase : GoStr → Option (GoStr × GoStr)
  | 'a' :: 'c' :: 'c' :: r => some (['a', 'c', 'c'], r)
  | 'g' :: 'e' :: 'n' :: r => some (['g', 'e', 'n'], r)
  | 'd' :: 'a' :: 't' :: r => some (['d', 'a', 't'], r)
  | _ => none

/-- Model of `reCaseMarker.FindStringSubmatch` for
`reCaseMarker = ^\(\+\pZ*(acc|gen|dat)\.?\)`: on success returns
(matches[0], matches[1], rest of the string after the match). -/
def matchCaseMarker : GoStr → Option (GoStr × GoStr × GoStr)
  | '(' :: '+' :: rest =>
    match tryCase (dropW isZ rest) with
    | some (name, r2) =>
      match r2 with
      | '.' :: ')' :: r3 =>
        some ('(' :: '+' :: (takeW isZ rest ++ name ++ ['.', ')']), name, r3)
      | ')' :: r3 =>
        some ('(' :: '+' :: (takeW isZ rest ++ name ++ [')']), name, r3)
      | _ => none
    | none => none
  | _ => none

/-- The tokens `mid\.` and `pass\.` tried at the head of a string. -/
def voiceTokenAt : GoStr → Option (GoStr × GoStr)
  | 'm' :: 'i' :: 'd' :: '.' :: r => some (['m', 'i', 'd'], r)
  | 'p' :: 'a' :: 's' :: 's' :: '.' :: r => some (['p', 'a', 's', 's'], r)
  | _ => none

/-- Scan for the token of `(mid|pass)\.` inside the `[^(]*(mid|pass)\.[^)]*\)`
suffix of the voice-marker pattern.  The greedy `[^(]*` makes Go report the
LAST token position reachable without crossing a `(`, and `[^)]*\)` requires
some `)` after the token. -/
def findLastVoice : GoStr → Option GoStr
  | [] => none
  | c :: cs =>
    let later : Option GoStr := if c = '(' then none else findLastVoice cs
    match later with
    | some v => some v
    | none =>
      match voiceTokenAt (c :: cs) with
      | some (v, r) => if r.contains ')' then some v else none
      | none => none

/-- Model of `reVoiceMarker.FindStringSubmatch` for
`reVoiceMarker = ^\([^(]*(mid|pass)\.[^)]*\)`, returning matches[1]
(the only submatch the code uses). -/
def matchVoiceMarker : GoStr → Option GoStr
  | '(' :: rest => findLastVoice rest
  | _ => none

/-- Model of `rePluralMarker.FindStringSubmatch ≠ nil` for
`rePluralMarker = ^\(pl\.\)` (the code only tests whether it matched). -/
def matchPluralMarker (s : GoStr) : Bool :=
  (gs "(pl.)").isPrefixOf s

/-- Model of `reCommaStar.ReplaceAllString(s, "")` with `reCommaStar = ,.*$`:
`.` does not match a newline and `$` anchors at end of text, so the cut point
is the first comma whose suffix contains no newline. -/
def reCommaStarReplace : GoStr → GoStr
  | [] => []
  | c :: cs =>
    if c = ',' ∧ ¬ cs.contains '\n' then [] else c :: reCommaStarReplace cs

/-- One attempted match of `\pZ*;\pZ*\(` at the head of a string, returning
the rest of the string after the match. -/
def matchSemiParen (s : GoStr) : Option GoStr :=
  match dropW isZ s with
  | ';' :: r2 =>
    match dropW isZ r2 with
    | '(' :: r3 => some r3
    | _ => none
  | _ => none

/-- Worker for `semiParenRepl`, with an explicit fuel argument so that the
recursion is structural; every step consumes at least one character, so fuel
equal to the string length never runs out. -/
def semiParenReplGo : Nat → GoStr → GoStr
  | 0, s => s
  | _ + 1, [] => []
  | fuel + 1, c :: cs =>
    match matchSemiParen (c :: cs) with
    | some rest => gs "<br>(" ++ semiParenReplGo fuel rest
    | none => c :: semiParenReplGo fuel cs

/-- Model of `reSemicolonParenthesis.ReplaceAllString(s, "<br>(")` with
`reSemicolonParenthesis = \pZ*;\pZ*\(`: scan left to right, replacing each
leftmost non-overlapping match. -/
def semiParenRepl (s : GoStr) : GoStr := semiParenReplGo s.length s

/-- The part-of-speech map shared by both vocab exporters. -/
def posMap : List (GoStr × GoStr) :=
  [(gs "adj", gs "adjective"), (gs "adv", gs "adverb"), (gs "conj", gs "conjunction"),
   (gs "n", gs "noun"), (gs "part", gs "particle"), (gs "prep", gs "preposition"),
   (gs "pron", gs "pronoun"), (gs "v", gs "verb")]

/-- `posMap[w.Pos]` with its `ok` flag, via the option result. -/
def posLookup (p : GoStr) : Option GoStr :=
  (posMap.find? (fun kv => kv.1 = p)).map (fun kv => kv.2)

def deckNameGrEn : GoStr := gs "Mastronarde Attic Greek Vocab (Greek-to-English)"

def csvCommentGrEn : GoStr :=
  gs "# This is an export of the MAG vocab dataset in Anki CSV format (Greek-to-English)"

def csvHeader : GoStr := gs "ID,Front,Back,Tags,DeckName"

/-- The five header lines `exportVocab` prints to the writer before any
vocab entry is processed (deckColumnPos = 5). -/
def headerLines : List GoStr :=
  [csvCommentGrEn, gs "#separator:Comma", gs "#columns:" ++ csvHeader,
   gs "#deck column:5", gs "#html:true"]

/-- Go `encoding/csv` quoting test: quote a field iff it is `\.`, contains the
comma, a quote or CR/LF, or starts with a whitespace rune. -/
def fieldNeedsQuotes (f : GoStr) : Bool :=
  if f = [] then false
  else if f = gs "\\." then true
  else if f.contains ',' || f.contains '"' || f.contains '\r' || f.contains '\n' then true
  else
    match f with
    | c :: _ => isWhiteSpace c
    | [] => false

/-- Go `encoding/csv` field quoting (UseCRLF is false, so CR and LF are
written through unchanged; quotes are doubled). -/
def quoteField (f : GoStr) : GoStr :=
  '"' :: (f.flatMap (fun c => if c = '"' then gs "\"\"" else [c]) ++ ['"'])

def csvField (f : GoStr) : GoStr := if fieldNeedsQuotes f then quoteField f else f

/-- One CSV record as written by `csv.Writer.Write` (comma separator). -/
def csvLine (fields : List GoStr) : GoStr :=
  List.intercalate (gs ",") (fields.map csvField)

namespace ExportAnkiVocab

/-- `CaseVoiceGloss` of cmd/export_anki_vocab; defaults are Go's zero values. -/
structure CaseVoiceGloss where
  Case : GoStr := []
  Voice : GoStr := []
  Plural : Bool := false
  Marker : GoStr := []
  Gloss : GoStr := []
deriving DecidableEq, Repr

/-- `if cg.Case != "" { cglist = append(cglist, cg) }`. -/
def pushPrep (l : List CaseVoiceGloss) (cg : CaseVoiceGloss) : List CaseVoiceGloss :=
  if cg.Case ≠ [] then l ++ [cg] else l

/-- The body of the `parsePrepGlosses` loop of export_anki_vocab.go, for the
entries after the first.  On a case-marker match, the marker is removed from
the entry (`strings.Replace(entry, matches[0], "", 1)` removes the first
occurrence of matches[0], which is the anchored match at position 0, i.e. the
prefix) and the remainder trimmed with `strings.TrimSpace`. -/
def prepLoop (l : List CaseVoiceGloss) (cg : CaseVoiceGloss) : List GoStr → List CaseVoiceGloss
  | [] => pushPrep l cg
  | e :: es =>
    match matchCaseMarker e with
    | none => prepLoop l { cg with Gloss := cg.Gloss ++ gs "; " ++ e } es
    | some (m, c, r) =>
      prepLoop (pushPrep l cg) { Case := c, Marker := m, Gloss := trimSpace r } es

/-- `parsePrepGlosses` of export_anki_vocab.go.  The first entry not having a
case marker is a fatal error (`log.Fatalf`), modelled as `none`. -/
def parsePrepGlosses (gloss : GoStr) : Option (List CaseVoiceGloss) :=
  match semiSplit gloss with
  | [] => some []
  | e :: es =>
    if (matchCaseMarker e).isSome then some (prepLoop [] {} (e :: es)) else none

/-- `if cg.Gloss != "" { cglist = append(cglist, cg) }`. -/
def pushGloss (l : List CaseVoiceGloss) (cg : CaseVoiceGloss) : List CaseVoiceGloss :=
  if cg.Gloss ≠ [] then l ++ [cg] else l

/-- The body of the `parseVoiceGlosses` loop of export_anki_vocab.go. -/
def voiceLoop (l : List CaseVoiceGloss) (cg : CaseVoiceGloss) : List GoStr → List CaseVoiceGloss
  | [] => pushGloss l cg
  | e :: es =>
    match matchVoiceMarker e with
    | none =>
      voiceLoop l { cg with Gloss := if cg.Gloss = [] then e else cg.Gloss ++ gs "; " ++ e } es
    | some v =>
      if cg.Voice = v then
        voiceLoop l { cg with Gloss := cg.Gloss ++ gs "; " ++ e } es
      else
        voiceLoop (pushGloss l cg) { Voice := v, Gloss := e } es

/-- `parseVoiceGlosses` of export_anki_vocab.go. -/
def parseVoiceGlosses (gloss : GoStr) : List CaseVoiceGloss :=
  voiceLoop [] {} (semiSplit gloss)

/-- The body of the `parsePluralGlosses` loop of export_anki_vocab.go. -/
def pluralLoop (l : List CaseVoiceGloss) (cg : CaseVoiceGloss) : List GoStr → List CaseVoiceGloss
  | [] => pushGloss l cg
  | e :: es =>
    if matchPluralMarker e then
      pluralLoop (pushGloss l cg) { Plural := true, Gloss := e } es
    else
      pluralLoop l { cg with Gloss := if cg.Gloss = [] then e else cg.Gloss ++ gs "; " ++ e } es

/-- `parsePluralGlosses` of export_anki_vocab.go. -/
def parsePluralGlosses (gloss : GoStr) : List CaseVoiceGloss :=
  pluralLoop [] {} (semiSplit gloss)

/-- The `Word` record of export_anki_vocab.go; defaults are Go's zero values. -/
structure Word where
  Gr : GoStr := []
  GrMP : GoStr := []
  GrPl : GoStr := []
  GrExt : GoStr := []
  Id : GoStr := []
  En : GoStr := []
  EnExt : GoStr := []
  Cog : GoStr := []
  Pos : GoStr := []
deriving DecidableEq, Repr

structure UnitVocab where
  Name : GoStr := []
  Unit : Int := 0
  Vocab : List Word := []
deriving DecidableEq, Repr

/-- The CLI options `exportVocab` consults (the rest is I/O glue). -/
structure Options where
  Unit : Int := 0
  Count : Int := 0
deriving DecidableEq, Repr

/-- The `log.Fatal` exits that can occur inside `exportVocab`. -/
inductive Fatal where
  | dupId : GoStr → Fatal
  | badPos : GoStr → GoStr → GoStr → Fatal
  | badGloss : GoStr → Fatal
deriving DecidableEq, Repr

/-- The id a word resolves to: `w.Id`, or `reCommaStar.ReplaceAllString(w.Gr, "")`. -/
def resolvedId (w : Word) : GoStr :=
  if w.Id ≠ [] then w.Id else reCommaStarReplace w.Gr

/-- `front := w.Gr; if w.GrExt != "" { front += " " + w.GrExt }`. -/
def frontOf (w : Word) : GoStr :=
  w.Gr ++ (if w.GrExt ≠ [] then gs " " ++ w.GrExt else [])

/-- `strings.Join([]string{deckNameGrEn, u.Name}, "::")`. -/
def deckOf (u : UnitVocab) : GoStr := deckNameGrEn ++ gs "::" ++ u.Name

/-- Gloss selection of export_anki_vocab.go: prepositions use
`parsePrepGlosses` (whose failure is fatal), words with a middle/passive form
use `parseVoiceGlosses`, words with a plural form use `parsePluralGlosses`,
and all other words leave `glosses` empty. -/
def glossesOf (w : Word) : Option (List CaseVoiceGloss) :=
  if w.Pos = gs "prep" then parsePrepGlosses w.En
  else if w.GrMP ≠ [] then some (parseVoiceGlosses w.En)
  else if w.GrPl ≠ [] then some (parsePluralGlosses w.En)
  else some []

/-- The `len(glosses) > 1` branch of `exportVocab`: one row per sub-gloss.
`front` is a mutable variable in Go and persists across iterations, so it is
threaded through the recursion. -/
def segRows (w : Word) (id tagstr deck : GoStr) :
    List CaseVoiceGloss → GoStr → List (List GoStr)
  | [], _ => []
  | cg :: rest, front =>
    let idfront : GoStr × GoStr :=
      if cg.Case ≠ [] then
        (id ++ gs "-" ++ cg.Case,
         w.Gr ++ gs " " ++ cg.Marker ++ (if w.GrExt ≠ [] then gs " " ++ w.GrExt else []))
      else if (cg.Voice = gs "mid" ∨ cg.Voice = gs "pass") ∧ w.GrMP ≠ [] then
        (w.GrMP, w.GrMP)
      else if w.GrPl ≠ [] ∧ cg.Plural then
        (reCommaStarReplace w.GrPl, w.GrPl)
      else (id, front)
    [idfront.1, idfront.2, semiParenRepl cg.Gloss, tagstr, deck] ::
      segRows w id tagstr deck rest idfront.2

/-- The `else` (single row) branch of `exportVocab`: back text is `w.En` with
`reSemicolonParenthesis` replaced by `<br>(`, then the optional en_ext and cog
suffixes. -/
def singleRowBack (w : Word) : GoStr :=
  (semiParenRepl w.En ++
    (if w.EnExt ≠ [] then gs "<br><i>" ++ w.EnExt ++ gs "</i>" else [])) ++
  (if w.Cog ≠ [] then gs "<br>[" ++ w.Cog ++ gs "]" else [])

/-- Processing of one word inside `exportVocab`: duplicate-id check, POS
check, gloss selection, then either the per-sub-gloss rows or the single row. -/
def processWord (u : UnitVocab) (w : Word) (idmap : List GoStr) :
    Except Fatal (List (List GoStr)) :=
  let id := resolvedId w
  if idmap.contains id then .error (.dupId id)
  else
    match posLookup w.Pos with
    | none => .error (.badPos w.Pos w.Gr w.En)
    | some pos =>
      match glossesOf w with
      | none => .error (.badGloss w.En)
      | some glosses =>
        let tagstr := gs "pos::" ++ pos
        if glosses.length > 1 then
          .ok (segRows w id tagstr (deckOf u) glosses (frontOf w))
        else
          .ok [[id, frontOf w, singleRowBack w, tagstr, deckOf u]]

/-- The inner word loop of `exportVocab`, threading the id map and the running
count (`count++` then `break` once `count > opts.Count` when a count limit is
set; the break only leaves the current unit's loop). -/
def wordsLoop (u : UnitVocab) (opts : Options) :
    List Word → List GoStr → Int → Except Fatal (List (List GoStr) × List GoStr × Int)
  | [], idmap, count => .ok ([], idmap, count)
  | w :: ws, idmap, count =>
    match processWord u w idmap with
    | .error e => .error e
    | .ok rows =>
      let idmap2 := resolvedId w :: idmap
      let count2 := count + 1
      if opts.Count > 0 ∧ count2 > opts.Count then .ok (rows, idmap2, count2)
      else
        match wordsLoop u opts ws idmap2 count2 with
        | .error e => .error e
        | .ok (rest, idmap3, count3) => .ok (rows ++ rest, idmap3, count3)

/-- The outer unit loop of `exportVocab` (unit filtering via the -u flag). -/
def unitsLoop (opts : Options) :
    List UnitVocab → List GoStr → Int → Except Fatal (List (List GoStr))
  | [], _, _ => .ok []
  | u :: us, idmap, count =>
    if opts.Unit > 0 ∧ u.Unit ≠ opts.Unit then unitsLoop opts us idmap count
    else
      match wordsLoop u opts u.Vocab idmap count with
      | .error e => .error e
      | .ok (rows, idmap2, count2) =>
        match unitsLoop opts us idmap2 count2 with
        | .error e => .error e
        | .ok rest => .ok (rows ++ rest)

/-- The CSV records `exportVocab` writes (count starts at 1, idmap empty). -/
def exportVocabRows (vocab : List UnitVocab) (opts : Options) :
    Except Fatal (List (List GoStr)) :=
  unitsLoop opts vocab [] 1

/-- What has reached the output writer when `exportVocab` finishes or exits:
the five header lines are printed directly (unbuffered `fmt.Fprintln`) before
any word is processed, while CSV records go through the `csv.Writer`'s buffer,
which is flushed only by the final `cwtr.Flush()`; a `log.Fatal` exit leaves
the buffered records unwritten (we assume the rows do not overflow the
writer's internal buffer before the fatal exit). -/
def exportVocabOutput (vocab : List UnitVocab) (opts : Options) :
    List GoStr × Option Fatal :=
  match exportVocabRows vocab opts with
  | .ok rows => (headerLines ++ rows.map csvLine, none)
  | .error e => (headerLines, some e)

/-- Models `json.MarshalIndent(stats, "", "  ")` of the stats map followed by
`Fprintln`.  Only its guard matters to the claims: in this tool the stats map
is never populated (the only write is commented out), so this line is never
emitted. -/
def jsonStatsLine (stats : List (GoStr × Int)) : GoStr :=
  match stats with
  | [] => ['{', '}']
  | _ =>
    ('{' :: stats.flatMap (fun kv =>
        '\n' :: ' ' :: ' ' :: '"' :: kv.1 ++ '"' :: ':' :: ' ' :: gs (toString kv.2)))
      ++ '\n' :: ['}']

/-- `RunCLI` of export_anki_vocab.go after a successful YAML decode: run
`exportVocab`, then append the JSON stats line only if the (never populated)
stats map is nonempty. -/
def runCLIOutput (vocab : List UnitVocab) (opts : Options) : List GoStr × Option Fatal :=
  let out := exportVocabOutput vocab opts
  let stats : List (GoStr × Int) := []
  match out.2 with
  | some e => (out.1, some e)
  | none => (if stats.length > 0 then out.1 ++ [jsonStatsLine stats] else out.1, none)

end ExportAnkiVocab

namespace ExportToAnki

/-- `CaseGloss` of cmd/export_to_anki; defaults are Go's zero values. -/
structure CaseGloss where
  Case : GoStr := []
  Marker : GoStr := []
  Gloss : GoStr := []
deriving DecidableEq, Repr

def pushPrep (l : List CaseGloss) (cg : CaseGloss) : List CaseGloss :=
  if cg.Case ≠ [] then l ++ [cg] else l

/-- The body of the `parsePrepGlosses` loop of export_to_anki.go: unlike the
export_anki_vocab variant, the new sub-gloss keeps the whole entry (including
the case marker) as its Gloss. -/
def prepLoop (l : List CaseGloss) (cg : CaseGloss) : List GoStr → List CaseGloss
  | [] => pushPrep l cg
  | e :: es =>
    match matchCaseMarker e with
    | none => prepLoop l { cg with Gloss := cg.Gloss ++ gs "; " ++ e } es
    | some (m, c, _) =>
      prepLoop (pushPrep l cg) { Case := c, Marker := m, Gloss := e } es

/-- `parsePrepGlosses` of export_to_anki.go; a missing case marker on the
first entry is fatal (`log.Fatalf`), modelled as `none`. -/
def parsePrepGlosses (gloss : GoStr) : Option (List CaseGloss) :=
  match semiSplit gloss with
  | [] => some []
  | e :: es =>
    if (matchCaseMarker e).isSome then some (prepLoop [] {} (e :: es)) else none

/-- The `Word` record of export_to_anki.go (no gr_mp / gr_pl fields). -/
structure Word where
  Gr : GoStr := []
  GrExt : GoStr := []
  Id : GoStr := []
  En : GoStr := []
  EnExt : GoStr := []
  Cog : GoStr := []
  Pos : GoStr := []
deriving DecidableEq, Repr

def resolvedId (w : Word) : GoStr :=
  if w.Id ≠ [] then w.Id else reCommaStarReplace w.Gr

def frontOf (w : Word) : GoStr :=
  w.Gr ++ (if w.GrExt ≠ [] then gs " " ++ w.GrExt else [])

/-- The `else` (single row) branch of export_to_anki.go's `exportVocab`:
back text is `w.En` unchanged, then the optional en_ext and cog suffixes. -/
def singleRowBack (w : Word) : GoStr :=
  (w.En ++ (if w.EnExt ≠ [] then gs "<br><i>" ++ w.EnExt ++ gs "</i>" else [])) ++
  (if w.Cog ≠ [] then gs "<br>[" ++ w.Cog ++ gs "]" else [])

/-- The `len(glosses) > 1` branch of export_to_anki.go's `exportVocab`. -/
def segRows (w : Word) (id tagstr deck : GoStr) : List CaseGloss → List (List GoStr)
  | [] => []
  | cg :: rest =>
    [id ++ gs "-" ++ cg.Case,
     w.Gr ++ gs " " ++ cg.Marker ++ (if w.GrExt ≠ [] then gs " " ++ w.GrExt else []),
     cg.Gloss, tagstr, deck] :: segRows w id tagstr deck rest

/-- Processing of one word inside export_to_anki.go's `exportVocab`. -/
def processWord (uName : GoStr) (w : Word) (idmap : List GoStr) :
    Except ExportAnkiVocab.Fatal (List (List GoStr)) :=
  let id := resolvedId w
  if idmap.contains id then .error (.dupId id)
  else
    match posLookup w.Pos with
    | none => .error (.badPos w.Pos w.Gr w.En)
    | some pos =>
      let glossesOpt : Option (List CaseGloss) :=
        if w.Pos = gs "prep" then parsePrepGlosses w.En else some []
      match glossesOpt with
      | none => .error (.badGloss w.En)
      | some glosses =>
        let tagstr := gs "pos::" ++ pos
        let deck := deckNameGrEn ++ gs "::" ++ uName
        if glosses.length > 1 then
          .ok (segRows w id tagstr deck glosses)
        else
          .ok [[id, frontOf w, singleRowBack w, tagstr, deck]]

end ExportToAnki

/-- A clause with its case marker stripped and the remainder trimmed, and the
marker itself retained in front — the normal form that marker stripping gives
a marked clause; unmarked clauses are unchanged. -/
def stripClause (e : GoStr) : GoStr :=
  match matchCaseMarker e with
  | some (m, _, r) => m ++ trimSpace r
  | none => e

/-- Join a list of strings with the separator of the segmenters. -/
def joinStrs : List GoStr → GoStr
  | [] => []
  | x :: xs => x ++ xs.flatMap (fun y => gs "; " ++ y)

/-- Rejoin the segments produced by the export_anki_vocab `parsePrepGlosses`:
each segment's marker followed by its accumulated gloss text, segments joined
with the clause separator. -/
def rejoinSegs (segs : List ExportAnkiVocab.CaseVoiceGloss) : GoStr :=
  joinStrs (segs.map (fun s => s.Marker ++ s.Gloss))

/-- The clause list of a gloss, rejoined after normalising each marked clause
by the case-marker stripping (whitespace adjacent to the marker is trimmed). -/
def strippedClausesText (entries : List GoStr) : GoStr :=
  joinStrs (entries.map stripClause)

/-- Reference grouping of clauses by their case markers: accumulates the
text of the current group and starts a new group at each marked clause. -/
def joinGroups (acc : GoStr) : List GoStr → List GoStr
  | [] => [acc]
  | e :: es =>
    match matchCaseMarker e with
    | none => joinGroups (acc ++ gs "; " ++ e) es
    | some (m, _, r) => acc :: joinGroups (m ++ trimSpace r) es

/-- All ids a vocab dataset's words resolve to, in processing order. -/
def allIds (vocab : List ExportAnkiVocab.UnitVocab) : List GoStr :=
  vocab.flatMap (fun u => u.Vocab.map ExportAnkiVocab.resolvedId)

/-- How a segment of the export_anki_vocab `parsePrepGlosses` relates to the
corresponding segment of the export_to_anki variant: same Case and Marker,
and the Gloss texts agree except that the first variant has dropped the
marker prefix of the head clause and trimmed the head clause's remainder. -/
def SegRel (cv : ExportAnkiVocab.CaseVoiceGloss) (ca : ExportToAnki.CaseGloss) : Prop :=
  cv.Case = ca.Case ∧ cv.Marker = ca.Marker ∧
    ∃ r t, ca.Gloss = ca.Marker ++ r ++ t ∧ cv.Gloss = trimSpace r ++ t

/-- Reference segmentation for voice mode, written as a direct left-to-right
recursion with the same branching as `parseVoiceGlosses`: each closed segment
is emitted BEFORE every segment opened by a later clause, so the segments of
the result appear exactly in the order of their opening clauses. -/
def voiceSegsInOrder (cg : ExportAnkiVocab.CaseVoiceGloss) :
    List GoStr → List ExportAnkiVocab.CaseVoiceGloss
  | [] => if cg.Gloss ≠ [] then [cg] else []
  | e :: es =>
    match matchVoiceMarker e with
    | none =>
      voiceSegsInOrder
        { cg with Gloss := if cg.Gloss = [] then e else cg.Gloss ++ gs "; " ++ e } es
    | some v =>
      if cg.Voice = v then
        voiceSegsInOrder { cg with Gloss := cg.Gloss ++ gs "; " ++ e } es
      else
        (if cg.Gloss ≠ [] then [cg] else []) ++
          voiceSegsInOrder { Voice := v, Gloss := e } es

/-- Reference segmentation for plural mode, emitting in input order like
`voiceSegsInOrder`, with the same branching as `parsePluralGlosses`. -/
def pluralSegsInOrder (cg : ExportAnkiVocab.CaseVoiceGloss) :
    List GoStr → List ExportAnkiVocab.CaseVoiceGloss
  | [] => if cg.Gloss ≠ [] then [cg] else []
  | e :: es =>
    if matchPluralMarker e then
      (if cg.Gloss ≠ [] then [cg] else []) ++
        pluralSegsInOrder { Plural := true, Gloss := e } es
    else
      pluralSegsInOrder
        { cg with Gloss := if cg.Gloss = [] then e else cg.Gloss ++ gs "; " ++ e } es

/-! ### Basic lemmas about the character-level matchers -/

theorem takeW_append_dropW (p : Char → Bool) :
    ∀ s : GoStr, takeW p s ++ dropW p s = s
  | [] => rfl
  | c :: cs => by
    simp only [takeW, dropW]
    split
    · simp [takeW_append_dropW p cs]
    · rfl

theorem tryCase_eq {s name r : GoStr} (h : tryCase s = some (name, r)) :
    s = name ++ r ∧ name ≠ [] := by
  unfold tryCase at h
  split at h <;> (try cases h) <;> simp_all

theorem matchCaseMarker_eq {e m c r : GoStr} (h : matchCaseMarker e = some (m, c, r)) :
    e = m ++ r ∧ c ≠ [] := by
  unfold matchCaseMarker at h
  split at h
  · rename_i rest
    split at h
    · rename_i name r2 htc
      obtain ⟨hs, hne⟩ := tryCase_eq htc
      split at h
      · rename_i r3
        cases h
        have hr : rest = takeW isZ rest ++ (c ++ '.' :: ')' :: r) := by
          rw [← hs]
          exact (takeW_append_dropW isZ rest).symm
        refine ⟨?_, hne⟩
        conv_lhs => rw [hr]
        simp [List.append_assoc]
      · rename_i r3
        cases h
        have hr : rest = takeW isZ rest ++ (c ++ ')' :: r) := by
          rw [← hs]
          exact (takeW_append_dropW isZ rest).symm
        refine ⟨?_, hne⟩
        conv_lhs => rw [hr]
        simp [List.append_assoc]
      · exact absurd h (by simp)
    · exact absurd h (by simp)
  · exact absurd h (by simp)

theorem voiceTokenAt_values {s v r : GoStr} (h : voiceTokenAt s = some (v, r)) :
    v = ['m', 'i', 'd'] ∨ v = ['p', 'a', 's', 's'] := by
  unfold voiceTokenAt at h
  split at h <;> (try cases h) <;> simp_all

theorem findLastVoice_values : ∀ {s v : GoStr}, findLastVoice s = some v →
    v = ['m', 'i', 'd'] ∨ v = ['p', 'a', 's', 's']
  | [], v => by
    intro h
    exact absurd h (by simp [findLastVoice])
  | c :: cs, v => by
    intro h
    simp only [findLastVoice] at h
    split at h
    · rename_i v2 hlater
      cases h
      split at hlater
      · exact absurd hlater (by simp)
      · exact findLastVoice_values hlater
    · split at h
      · rename_i v2 r htok
        split at h
        · cases h
          exact voiceTokenAt_values htok
        · exact absurd h (by simp)
      · exact absurd h (by simp)

theorem matchVoiceMarker_values {e v : GoStr} (h : matchVoiceMarker e = some v) :
    v = ['m', 'i', 'd'] ∨ v = ['p', 'a', 's', 's'] := by
  unfold matchVoiceMarker at h
  split at h
  · exact findLastVoice_values h
  · exact absurd h (by simp)

theorem matchVoiceMarker_ne_nil {e v : GoStr} (h : matchVoiceMarker e = some v) :
    e ≠ [] := by
  unfold matchVoiceMarker at h
  split at h
  · simp
  · exact absurd h (by simp)

theorem matchVoiceMarker_value_ne_nil {e v : GoStr} (h : matchVoiceMarker e = some v) :
    v ≠ [] := by
  rcases matchVoiceMarker_values h with hv | hv <;> simp [hv]

theorem matchPluralMarker_ne_nil {e : GoStr} (h : matchPluralMarker e = true) :
    e ≠ [] := by
  cases e with
  | nil => exact absurd h (by decide)
  | cons c cs => simp

/-! ### Claim C1: missing case marker on the first clause is fatal -/

/-- C1: in case-marker mode, a gloss whose first semicolon-separated clause
does not begin with a case marker makes `parsePrepGlosses` terminate the
program (`log.Fatalf`, modelled as `none`) instead of returning a segment
list — in both exporters. -/
theorem C1_prep_first_clause_without_marker_is_fatal
    (gloss e : GoStr) (es : List GoStr)
    (hsplit : semiSplit gloss = e :: es)
    (hnone : matchCaseMarker e = none) :
    ExportAnkiVocab.parsePrepGlosses gloss = none ∧
    ExportToAnki.parsePrepGlosses gloss = none := by
  unfold ExportAnkiVocab.parsePrepGlosses ExportToAnki.parsePrepGlosses
  rw [hsplit]
  simp [hnone]

/-- Witness for C1 at the concrete gloss "to, toward". -/
theorem C1_witness :
    semiSplit (gs "to, toward") = [gs "to, toward"] ∧
    matchCaseMarker (gs "to, toward") = none ∧
    (ExportAnkiVocab.parsePrepGlosses (gs "to, toward") = none ∧
     ExportToAnki.parsePrepGlosses (gs "to, toward") = none) :=
  ⟨by decide, by decide,
   C1_prep_first_clause_without_marker_is_fatal (gs "to, toward") (gs "to, toward") []
     (by decide) (by decide)⟩

/-! ### Accumulator lemmas for the segmenter loops -/

theorem vPushPrep_eq (l : List ExportAnkiVocab.CaseVoiceGloss) (cg : ExportAnkiVocab.CaseVoiceGloss) :
    ExportAnkiVocab.pushPrep l cg = l ++ ExportAnkiVocab.pushPrep [] cg := by
  unfold ExportAnkiVocab.pushPrep
  split <;> simp

theorem vPrepLoop_append :
    ∀ (es : List GoStr) (l : List ExportAnkiVocab.CaseVoiceGloss) (cg : ExportAnkiVocab.CaseVoiceGloss),
      ExportAnkiVocab.prepLoop l cg es = l ++ ExportAnkiVocab.prepLoop [] cg es
  | [], l, cg => vPushPrep_eq l cg
  | e :: es, l, cg => by
    cases hm : matchCaseMarker e with
    | none =>
      simp only [ExportAnkiVocab.prepLoop, hm]
      rw [vPrepLoop_append es l]
    | some mcr =>
      obtain ⟨m, c, r⟩ := mcr
      simp only [ExportAnkiVocab.prepLoop, hm]
      rw [vPrepLoop_append es (ExportAnkiVocab.pushPrep l cg),
        vPrepLoop_append es (ExportAnkiVocab.pushPrep [] cg), vPushPrep_eq l cg]
      simp [List.append_assoc]

theorem aPushPrep_eq (l : List ExportToAnki.CaseGloss) (cg : ExportToAnki.CaseGloss) :
    ExportToAnki.pushPrep l cg = l ++ ExportToAnki.pushPrep [] cg := by
  unfold ExportToAnki.pushPrep
  split <;> simp

theorem aPrepLoop_append :
    ∀ (es : List GoStr) (l : List ExportToAnki.CaseGloss) (cg : ExportToAnki.CaseGloss),
      ExportToAnki.prepLoop l cg es = l ++ ExportToAnki.prepLoop [] cg es
  | [], l, cg => aPushPrep_eq l cg
  | e :: es, l, cg => by
    cases hm : matchCaseMarker e with
    | none =>
      simp only [ExportToAnki.prepLoop, hm]
      rw [aPrepLoop_append es l]
    | some mcr =>
      obtain ⟨m, c, r⟩ := mcr
      simp only [ExportToAnki.prepLoop, hm]
      rw [aPrepLoop_append es (ExportToAnki.pushPrep l cg),
        aPrepLoop_append es (ExportToAnki.pushPrep [] cg), aPushPrep_eq l cg]
      simp [List.append_assoc]

/-! ### Claim C2: segment-and-rejoin round trip for case-marker mode -/

theorem vPrepLoop_marker_gloss :
    ∀ (es : List GoStr) (cg : ExportAnkiVocab.CaseVoiceGloss), cg.Case ≠ [] →
      (ExportAnkiVocab.prepLoop [] cg es).map (fun s => s.Marker ++ s.Gloss) =
        joinGroups (cg.Marker ++ cg.Gloss) es
  | [], cg, hc => by
    simp only [ExportAnkiVocab.prepLoop, ExportAnkiVocab.pushPrep, if_pos hc, joinGroups]
    simp
  | e :: es, cg, hc => by
    cases hm : matchCaseMarker e with
    | none =>
      simp only [ExportAnkiVocab.prepLoop, hm, joinGroups]
      rw [vPrepLoop_marker_gloss es { cg with Gloss := cg.Gloss ++ gs "; " ++ e } hc]
      simp [List.append_assoc]
    | some mcr =>
      obtain ⟨m, c, r⟩ := mcr
      have hcne : c ≠ [] := (matchCaseMarker_eq hm).2
      simp only [ExportAnkiVocab.prepLoop, hm, joinGroups]
      rw [vPrepLoop_append es (ExportAnkiVocab.pushPrep [] cg)]
      simp only [ExportAnkiVocab.pushPrep, if_pos hc]
      rw [List.map_append,
        vPrepLoop_marker_gloss es { Case := c, Marker := m, Gloss := trimSpace r } hcne]
      simp

theorem joinGroups_ne_nil : ∀ (a : GoStr) (es : List GoStr), joinGroups a es ≠ []
  | a, [] => by simp [joinGroups]
  | a, e :: es => by
    cases hm : matchCaseMarker e with
    | none =>
      simp only [joinGroups, hm]
      exact joinGroups_ne_nil _ es
    | some mcr =>
      obtain ⟨m, c, r⟩ := mcr
      simp [joinGroups, hm]

theorem flatMap_sep_joinStrs (L : List GoStr) (hL : L ≠ []) :
    L.flatMap (fun y => gs "; " ++ y) = gs "; " ++ joinStrs L := by
  cases L with
  | nil => exact absurd rfl hL
  | cons x xs => simp [joinStrs, List.append_assoc]

theorem joinStrs_joinGroups :
    ∀ (es : List GoStr) (a : GoStr),
      joinStrs (joinGroups a es) = a ++ es.flatMap (fun e => gs "; " ++ stripClause e)
  | [], a => by simp [joinGroups, joinStrs]
  | e :: es, a => by
    cases hm : matchCaseMarker e with
    | none =>
      simp only [joinGroups, hm, List.flatMap_cons]
      rw [joinStrs_joinGroups es]
      simp only [stripClause, hm]
      simp [List.append_assoc]
    | some mcr =>
      obtain ⟨m, c, r⟩ := mcr
      simp only [joinGroups, hm, List.flatMap_cons, joinStrs]
      rw [flatMap_sep_joinStrs _ (joinGroups_ne_nil _ _), joinStrs_joinGroups es]
      simp only [stripClause, hm]
      simp [List.append_assoc]

/-- C2: for every gloss whose first clause carries a leading case marker,
segmenting with the export_anki_vocab `parsePrepGlosses` succeeds, and
rejoining the segments (each segment's marker followed by its accumulated
gloss text, clauses joined with "; ") reproduces the original clause text
modulo the stripping of the case markers (each marked clause is normalised to
its marker followed by the whitespace-trimmed remainder). -/
theorem C2_prep_segment_rejoin_roundtrip
    (gloss e : GoStr) (es : List GoStr)
    (hsplit : semiSplit gloss = e :: es)
    (hsome : (matchCaseMarker e).isSome) :
    ∃ segs, ExportAnkiVocab.parsePrepGlosses gloss = some segs ∧
      rejoinSegs segs = strippedClausesText (e :: es) := by
  obtain ⟨⟨m, c, r⟩, hm⟩ := Option.isSome_iff_exists.mp hsome
  refine ⟨ExportAnkiVocab.prepLoop [] {} (e :: es), ?_, ?_⟩
  · unfold ExportAnkiVocab.parsePrepGlosses
    rw [hsplit]
    simp [hsome]
  · have hcne : c ≠ [] := (matchCaseMarker_eq hm).2
    have hstep : ExportAnkiVocab.prepLoop [] ({} : ExportAnkiVocab.CaseVoiceGloss) (e :: es) =
        ExportAnkiVocab.prepLoop [] { Case := c, Marker := m, Gloss := trimSpace r } es := by
      simp only [ExportAnkiVocab.prepLoop, hm, ExportAnkiVocab.pushPrep]
      rfl
    unfold rejoinSegs strippedClausesText
    rw [hstep,
      vPrepLoop_marker_gloss es { Case := c, Marker := m, Gloss := trimSpace r } hcne,
      joinStrs_joinGroups es]
    simp only [List.map_cons, joinStrs, List.flatMap_map]
    simp only [stripClause, hm]

/-- Witness for C2 at the concrete gloss "(+ acc.) to; up; (+ gen.) from". -/
theorem C2_witness :
    semiSplit (gs "(+ acc.) to; up; (+ gen.) from") =
      [gs "(+ acc.) to", gs "up", gs "(+ gen.) from"] ∧
    (matchCaseMarker (gs "(+ acc.) to")).isSome ∧
    ∃ segs, ExportAnkiVocab.parsePrepGlosses (gs "(+ acc.) to; up; (+ gen.) from") = some segs ∧
      rejoinSegs segs =
        strippedClausesText [gs "(+ acc.) to", gs "up", gs "(+ gen.) from"] :=
  ⟨by decide, by decide,
   C2_prep_segment_rejoin_roundtrip (gs "(+ acc.) to; up; (+ gen.) from")
     (gs "(+ acc.) to") [gs "up", gs "(+ gen.) from"] (by decide) (by decide)⟩

/-! ### Claim C3: repeated voice markers of the same kind merge -/

theorem voiceLoop_same_voice_length :
    ∀ (es : List GoStr) (cg : ExportAnkiVocab.CaseVoiceGloss), cg.Gloss ≠ [] →
      (∀ e2 ∈ es, matchVoiceMarker e2 = none ∨ matchVoiceMarker e2 = some cg.Voice) →
      (ExportAnkiVocab.voiceLoop [] cg es).length = 1
  | [], cg, hg, _ => by
    simp [ExportAnkiVocab.voiceLoop, ExportAnkiVocab.pushGloss, if_pos hg]
  | e :: es, cg, hg, hall => by
    have hne : cg.Gloss ++ gs "; " ++ e ≠ [] := by
      intro hcontra
      rw [List.append_eq_nil, List.append_eq_nil] at hcontra
      exact hg hcontra.1.1
    cases hm : matchVoiceMarker e with
    | none =>
      simp only [ExportAnkiVocab.voiceLoop, hm]
      rw [if_neg hg]
      exact voiceLoop_same_voice_length es { cg with Gloss := cg.Gloss ++ gs "; " ++ e }
        hne (fun e2 he2 => hall e2 (List.mem_cons_of_mem e he2))
    | some v =>
      have hv : cg.Voice = v := by
        rcases hall e (List.mem_cons_self e es) with h | h
        · exact absurd hm (by simp [h])
        · rw [hm] at h
          exact (Option.some_inj.mp h).symm
      simp only [ExportAnkiVocab.voiceLoop, hm]
      rw [if_pos hv]
      exact voiceLoop_same_voice_length es { cg with Gloss := cg.Gloss ++ gs "; " ++ e }
        hne (fun e2 he2 => hall e2 (List.mem_cons_of_mem e he2))

/-- C3: in `parseVoiceGlosses`, a clause whose leading voice marker carries
the same voice as the currently open segment is appended to that segment
rather than opening a new one (first conjunct), so a gloss whose marked
clauses all carry one voice kind, starting with its first clause, yields a
single output segment (second conjunct). -/
theorem C3_same_voice_markers_merge :
    (∀ (l : List ExportAnkiVocab.CaseVoiceGloss) (cg : ExportAnkiVocab.CaseVoiceGloss)
        (e : GoStr) (es : List GoStr) (v : GoStr),
      matchVoiceMarker e = some v → cg.Voice = v →
      ExportAnkiVocab.voiceLoop l cg (e :: es) =
        ExportAnkiVocab.voiceLoop l { cg with Gloss := cg.Gloss ++ gs "; " ++ e } es) ∧
    (∀ (gloss e : GoStr) (es : List GoStr) (v : GoStr),
      semiSplit gloss = e :: es → matchVoiceMarker e = some v →
      (∀ e2 ∈ es, matchVoiceMarker e2 = none ∨ matchVoiceMarker e2 = some v) →
      (ExportAnkiVocab.parseVoiceGlosses gloss).length = 1) := by
  constructor
  · intro l cg e es v hm hv
    simp only [ExportAnkiVocab.voiceLoop, hm]
    rw [if_pos hv]
  · intro gloss e es v hsplit hm hall
    unfold ExportAnkiVocab.parseVoiceGlosses
    rw [hsplit]
    have hvne : (({} : ExportAnkiVocab.CaseVoiceGloss)).Voice ≠ v :=
      fun h => (matchVoiceMarker_value_ne_nil hm) h.symm
    simp only [ExportAnkiVocab.voiceLoop, hm]
    rw [if_neg hvne]
    have hpush : ExportAnkiVocab.pushGloss [] ({} : ExportAnkiVocab.CaseVoiceGloss) = [] := by
      simp [ExportAnkiVocab.pushGloss]
    rw [hpush]
    exact voiceLoop_same_voice_length es { Voice := v, Gloss := e }
      (matchVoiceMarker_ne_nil hm) hall

/-- Witness for C3: a same-voice step appends to the open segment, and the
gloss "(mid.) a; (mid.) b" yields one segment. -/
theorem C3_witness :
    (ExportAnkiVocab.voiceLoop [] { Voice := gs "mid", Gloss := gs "x" } [gs "(mid.) y"] =
      ExportAnkiVocab.voiceLoop []
        { Voice := gs "mid", Gloss := gs "x" ++ gs "; " ++ gs "(mid.) y" } []) ∧
    (ExportAnkiVocab.parseVoiceGlosses (gs "(mid.) a; (mid.) b")).length = 1 :=
  ⟨C3_same_voice_markers_merge.1 [] { Voice := gs "mid", Gloss := gs "x" }
      (gs "(mid.) y") [] (gs "mid") (by decide) (by decide),
   C3_same_voice_markers_merge.2 (gs "(mid.) a; (mid.) b") (gs "(mid.) a")
      [gs "(mid.) b"] (gs "mid") (by decide) (by decide) (by decide)⟩

/-! ### Claim C4: plural and case modes open one segment per marker match -/

theorem vPrepLoop_length :
    ∀ (es : List GoStr) (cg : ExportAnkiVocab.CaseVoiceGloss), cg.Case ≠ [] →
      (ExportAnkiVocab.prepLoop [] cg es).length =
        1 + (es.filter (fun e => (matchCaseMarker e).isSome)).length
  | [], cg, hc => by
    simp [ExportAnkiVocab.prepLoop, ExportAnkiVocab.pushPrep, if_pos hc]
  | e :: es, cg, hc => by
    cases hm : matchCaseMarker e with
    | none =>
      simp only [ExportAnkiVocab.prepLoop, hm]
      rw [vPrepLoop_length es { cg with Gloss := cg.Gloss ++ gs "; " ++ e } hc]
      simp [List.filter_cons, hm]
    | some mcr =>
      obtain ⟨m, c, r⟩ := mcr
      simp only [ExportAnkiVocab.prepLoop, hm]
      rw [vPrepLoop_append es (ExportAnkiVocab.pushPrep [] cg)]
      simp only [ExportAnkiVocab.pushPrep, if_pos hc]
      rw [List.length_append,
        vPrepLoop_length es { Case := c, Marker := m, Gloss := trimSpace r }
          ((matchCaseMarker_eq hm).2)]
      simp [List.filter_cons, hm]
      omega

theorem vPushGloss_eq (l : List ExportAnkiVocab.CaseVoiceGloss)
    (cg : ExportAnkiVocab.CaseVoiceGloss) :
    ExportAnkiVocab.pushGloss l cg = l ++ ExportAnkiVocab.pushGloss [] cg := by
  unfold ExportAnkiVocab.pushGloss
  split <;> simp

theorem pushGloss_plural_length (cg : ExportAnkiVocab.CaseVoiceGloss) :
    ((ExportAnkiVocab.pushGloss [] cg).filter (fun s => s.Plural)).length =
      (if cg.Plural = true ∧ cg.Gloss ≠ [] then 1 else 0) := by
  unfold ExportAnkiVocab.pushGloss
  split <;> rename_i h
  · cases hp : cg.Plural <;> simp [List.filter_cons, hp, h]
  · simp [h]

theorem pluralLoop_plural_count :
    ∀ (es : List GoStr) (l : List ExportAnkiVocab.CaseVoiceGloss)
      (cg : ExportAnkiVocab.CaseVoiceGloss), (cg.Plural = true → cg.Gloss ≠ []) →
      ((ExportAnkiVocab.pluralLoop l cg es).filter (fun s => s.Plural)).length =
        ((l.filter (fun s => s.Plural)).length +
          (if cg.Plural = true ∧ cg.Gloss ≠ [] then 1 else 0)) +
        (es.filter (fun e => matchPluralMarker e)).length
  | [], l, cg, hinv => by
    simp only [ExportAnkiVocab.pluralLoop]
    rw [vPushGloss_eq l cg, List.filter_append, List.length_append, pushGloss_plural_length]
    simp
  | e :: es, l, cg, hinv => by
    cases hm : matchPluralMarker e with
    | true =>
      have hene : e ≠ [] := matchPluralMarker_ne_nil hm
      simp only [ExportAnkiVocab.pluralLoop, hm, if_true]
      rw [pluralLoop_plural_count es (ExportAnkiVocab.pushGloss l cg)
        { Plural := true, Gloss := e } (fun _ => hene)]
      rw [vPushGloss_eq l cg, List.filter_append, List.length_append, pushGloss_plural_length]
      simp [List.filter_cons, hm, hene]
      omega
    | false =>
      simp only [ExportAnkiVocab.pluralLoop, hm, Bool.false_eq_true, if_false]
      rw [pluralLoop_plural_count es l
        { cg with Gloss := if cg.Gloss = [] then e else cg.Gloss ++ gs "; " ++ e } ?hinv2]
      case hinv2 =>
        intro hp
        have hg := hinv hp
        rw [if_neg hg]
        intro hcontra
        rw [List.append_eq_nil, List.append_eq_nil] at hcontra
        exact hg hcontra.1.1
      have hone : (if cg.Plural = true ∧
            (if cg.Gloss = [] then e else cg.Gloss ++ gs "; " ++ e) ≠ [] then 1 else 0) =
          (if cg.Plural = true ∧ cg.Gloss ≠ [] then 1 else 0) := by
        cases hp : cg.Plural with
        | false => simp
        | true =>
          have hg := hinv hp
          rw [if_neg hg]
          have : cg.Gloss ++ gs "; " ++ e ≠ [] := by
            intro hcontra
            rw [List.append_eq_nil, List.append_eq_nil] at hcontra
            exact hg hcontra.1.1
          simp [hg, this]
      rw [hone]
      simp [List.filter_cons, hm]

/-- C4: in case mode every marker-matching clause opens its own segment
(the number of segments equals the number of matching clauses), and in plural
mode likewise (the number of plural segments equals the number of matching
clauses); marker-bearing clauses are never merged, even when the markers are
identical. -/
theorem C4_one_segment_per_marker_match :
    (∀ (gloss : GoStr) (segs : List ExportAnkiVocab.CaseVoiceGloss),
      ExportAnkiVocab.parsePrepGlosses gloss = some segs →
      segs.length = ((semiSplit gloss).filter (fun e => (matchCaseMarker e).isSome)).length) ∧
    (∀ gloss : GoStr,
      ((ExportAnkiVocab.parsePluralGlosses gloss).filter (fun s => s.Plural)).length =
        ((semiSplit gloss).filter (fun e => matchPluralMarker e)).length) := by
  constructor
  · intro gloss segs h
    unfold ExportAnkiVocab.parsePrepGlosses at h
    cases hsp : semiSplit gloss with
    | nil =>
      rw [hsp] at h
      simp at h
      subst h
      simp
    | cons e es =>
      rw [hsp] at h
      by_cases hm : (matchCaseMarker e).isSome
      · simp only [if_pos hm] at h
        rw [Option.some_inj] at h
        subst h
        obtain ⟨⟨m, c, r⟩, hmc⟩ := Option.isSome_iff_exists.mp hm
        have hstep : ExportAnkiVocab.prepLoop [] ({} : ExportAnkiVocab.CaseVoiceGloss) (e :: es) =
            ExportAnkiVocab.prepLoop [] { Case := c, Marker := m, Gloss := trimSpace r } es := by
          simp only [ExportAnkiVocab.prepLoop, hmc, ExportAnkiVocab.pushPrep]
          rfl
        rw [hstep, vPrepLoop_length es _ ((matchCaseMarker_eq hmc).2)]
        simp [List.filter_cons, hm]
        omega
      · simp only [if_neg hm] at h
        exact absurd h (by simp)
  · intro gloss
    unfold ExportAnkiVocab.parsePluralGlosses
    rw [pluralLoop_plural_count (semiSplit gloss) [] {} (by intro h; cases h)]
    simp

/-- Witness for C4's first conjunct at "(+ acc.) to; (+ acc.) up". -/
theorem C4_witness :
    ExportAnkiVocab.parsePrepGlosses (gs "(+ acc.) to; (+ acc.) up") =
      some [{ Case := gs "acc", Marker := gs "(+ acc.)", Gloss := gs "to" },
            { Case := gs "acc", Marker := gs "(+ acc.)", Gloss := gs "up" }] ∧
    ([{ Case := gs "acc", Marker := gs "(+ acc.)", Gloss := gs "to" },
      { Case := gs "acc", Marker := gs "(+ acc.)", Gloss := gs "up" }] :
        List ExportAnkiVocab.CaseVoiceGloss).length =
      ((semiSplit (gs "(+ acc.) to; (+ acc.) up")).filter
        (fun e => (matchCaseMarker e).isSome)).length :=
  ⟨by decide,
   C4_one_segment_per_marker_match.1 (gs "(+ acc.) to; (+ acc.) up") _ (by decide)⟩

/-! ### Claim C5: input order and the "; " separator for unmarked clauses -/

theorem vPrepLoop_markers :
    ∀ (es : List GoStr) (cg : ExportAnkiVocab.CaseVoiceGloss), cg.Case ≠ [] →
      (ExportAnkiVocab.prepLoop [] cg es).map (fun s => s.Marker) =
        cg.Marker :: es.filterMap (fun e => (matchCaseMarker e).map (fun x => x.1))
  | [], cg, hc => by
    simp [ExportAnkiVocab.prepLoop, ExportAnkiVocab.pushPrep, if_pos hc]
  | e :: es, cg, hc => by
    cases hm : matchCaseMarker e with
    | none =>
      simp only [ExportAnkiVocab.prepLoop, hm]
      rw [vPrepLoop_markers es { cg with Gloss := cg.Gloss ++ gs "; " ++ e } hc]
      simp [List.filterMap_cons, hm]
    | some mcr =>
      obtain ⟨m, c, r⟩ := mcr
      simp only [ExportAnkiVocab.prepLoop, hm]
      rw [vPrepLoop_append es (ExportAnkiVocab.pushPrep [] cg)]
      simp only [ExportAnkiVocab.pushPrep, if_pos hc]
      rw [List.map_append,
        vPrepLoop_markers es { Case := c, Marker := m, Gloss := trimSpace r }
          ((matchCaseMarker_eq hm).2)]
      simp [List.filterMap_cons, hm]

theorem voiceLoop_append :
    ∀ (es : List GoStr) (l : List ExportAnkiVocab.CaseVoiceGloss)
      (cg : ExportAnkiVocab.CaseVoiceGloss),
      ExportAnkiVocab.voiceLoop l cg es = l ++ ExportAnkiVocab.voiceLoop [] cg es
  | [], l, cg => vPushGloss_eq l cg
  | e :: es, l, cg => by
    cases hm : matchVoiceMarker e with
    | none =>
      simp only [ExportAnkiVocab.voiceLoop, hm]
      rw [voiceLoop_append es l]
    | some v =>
      by_cases hv : cg.Voice = v
      · simp only [ExportAnkiVocab.voiceLoop, hm, if_pos hv]
        rw [voiceLoop_append es l]
      · simp only [ExportAnkiVocab.voiceLoop, hm, if_neg hv]
        rw [voiceLoop_append es (ExportAnkiVocab.pushGloss l cg),
          voiceLoop_append es (ExportAnkiVocab.pushGloss [] cg), vPushGloss_eq l cg]
        simp [List.append_assoc]

theorem pluralLoop_append :
    ∀ (es : List GoStr) (l : List ExportAnkiVocab.CaseVoiceGloss)
      (cg : ExportAnkiVocab.CaseVoiceGloss),
      ExportAnkiVocab.pluralLoop l cg es = l ++ ExportAnkiVocab.pluralLoop [] cg es
  | [], l, cg => vPushGloss_eq l cg
  | e :: es, l, cg => by
    cases hm : matchPluralMarker e with
    | true =>
      simp only [ExportAnkiVocab.pluralLoop, hm, if_true]
      rw [pluralLoop_append es (ExportAnkiVocab.pushGloss l cg),
        pluralLoop_append es (ExportAnkiVocab.pushGloss [] cg), vPushGloss_eq l cg]
      simp [List.append_assoc]
    | false =>
      simp only [ExportAnkiVocab.pluralLoop, hm, Bool.false_eq_true, if_false]
      rw [pluralLoop_append es l]

theorem voiceLoop_eq_inOrder :
    ∀ (es : List GoStr) (cg : ExportAnkiVocab.CaseVoiceGloss),
      ExportAnkiVocab.voiceLoop [] cg es = voiceSegsInOrder cg es
  | [], cg => by
    simp only [ExportAnkiVocab.voiceLoop, ExportAnkiVocab.pushGloss, voiceSegsInOrder]
    split <;> rfl
  | e :: es, cg => by
    cases hm : matchVoiceMarker e with
    | none =>
      simp only [ExportAnkiVocab.voiceLoop, voiceSegsInOrder, hm]
      exact voiceLoop_eq_inOrder es _
    | some v =>
      by_cases hv : cg.Voice = v
      · simp only [ExportAnkiVocab.voiceLoop, voiceSegsInOrder, hm, if_pos hv]
        exact voiceLoop_eq_inOrder es _
      · simp only [ExportAnkiVocab.voiceLoop, voiceSegsInOrder, hm, if_neg hv]
        rw [voiceLoop_append es (ExportAnkiVocab.pushGloss [] cg), voiceLoop_eq_inOrder es]
        by_cases hg : cg.Gloss ≠ [] <;> simp [ExportAnkiVocab.pushGloss, hg]

theorem pluralLoop_eq_inOrder :
    ∀ (es : List GoStr) (cg : ExportAnkiVocab.CaseVoiceGloss),
      ExportAnkiVocab.pluralLoop [] cg es = pluralSegsInOrder cg es
  | [], cg => by
    simp only [ExportAnkiVocab.pluralLoop, ExportAnkiVocab.pushGloss, pluralSegsInOrder]
    split <;> rfl
  | e :: es, cg => by
    cases hm : matchPluralMarker e with
    | true =>
      simp only [ExportAnkiVocab.pluralLoop, pluralSegsInOrder, hm, if_true]
      rw [pluralLoop_append es (ExportAnkiVocab.pushGloss [] cg), pluralLoop_eq_inOrder es]
      by_cases hg : cg.Gloss ≠ [] <;> simp [ExportAnkiVocab.pushGloss, hg]
    | false =>
      simp only [ExportAnkiVocab.pluralLoop, pluralSegsInOrder, hm,
        Bool.false_eq_true, if_false]
      exact pluralLoop_eq_inOrder es _

/-- Counterexample to C5: in voice mode, the unmarked clause "b" of the gloss
";b" is processed while the open segment's text is empty, and becomes the
segment text directly — it is NOT appended with a "; " separator (which would
give "; b"). -/
theorem C5_counterexample :
    ExportAnkiVocab.parseVoiceGlosses (gs ";b") =
      [{ Case := [], Voice := [], Plural := false, Marker := [], Gloss := gs "b" }] ∧
    gs "b" ≠ ([] : GoStr) ++ gs "; " ++ gs "b" := by
  constructor
  · decide
  · decide

/-- C5 as amended: segments are emitted in the order their opening clauses
appear — in case mode the segment markers are exactly the matched markers in
input order (conjunct 1), and in voice and plural modes the output equals the
direct left-to-right builders `voiceSegsInOrder`/`pluralSegsInOrder`, which
emit each closed segment before every segment opened by a later clause
(conjuncts 5 and 6) — and an unmarked clause is appended to the currently
open segment without emitting anything: in case mode always with the "; "
separator, in voice and plural modes with the "; " separator when the open
segment's text is nonempty and as the whole text when it is empty
(conjuncts 2 to 4). -/
theorem C5_amended_order_and_separator :
    (∀ (gloss : GoStr) (segs : List ExportAnkiVocab.CaseVoiceGloss),
      ExportAnkiVocab.parsePrepGlosses gloss = some segs →
      segs.map (fun s => s.Marker) =
        (semiSplit gloss).filterMap (fun e => (matchCaseMarker e).map (fun x => x.1))) ∧
    (∀ (l : List ExportAnkiVocab.CaseVoiceGloss) (cg : ExportAnkiVocab.CaseVoiceGloss)
        (e : GoStr) (es : List GoStr),
      matchCaseMarker e = none →
      ExportAnkiVocab.prepLoop l cg (e :: es) =
        ExportAnkiVocab.prepLoop l { cg with Gloss := cg.Gloss ++ gs "; " ++ e } es) ∧
    (∀ (l : List ExportAnkiVocab.CaseVoiceGloss) (cg : ExportAnkiVocab.CaseVoiceGloss)
        (e : GoStr) (es : List GoStr),
      matchVoiceMarker e = none →
      ExportAnkiVocab.voiceLoop l cg (e :: es) =
        ExportAnkiVocab.voiceLoop l
          { cg with Gloss := if cg.Gloss = [] then e else cg.Gloss ++ gs "; " ++ e } es) ∧
    (∀ (l : List ExportAnkiVocab.CaseVoiceGloss) (cg : ExportAnkiVocab.CaseVoiceGloss)
        (e : GoStr) (es : List GoStr),
      matchPluralMarker e = false →
      ExportAnkiVocab.pluralLoop l cg (e :: es) =
        ExportAnkiVocab.pluralLoop l
          { cg with Gloss := if cg.Gloss = [] then e else cg.Gloss ++ gs "; " ++ e } es) ∧
    (∀ gloss : GoStr,
      ExportAnkiVocab.parseVoiceGlosses gloss = voiceSegsInOrder {} (semiSplit gloss)) ∧
    (∀ gloss : GoStr,
      ExportAnkiVocab.parsePluralGlosses gloss = pluralSegsInOrder {} (semiSplit gloss)) := by
  refine ⟨?_, ?_, ?_, ?_, ?_, ?_⟩
  · intro gloss segs h
    unfold ExportAnkiVocab.parsePrepGlosses at h
    cases hsp : semiSplit gloss with
    | nil =>
      rw [hsp] at h
      simp at h
      subst h
      simp
    | cons e es =>
      rw [hsp] at h
      by_cases hm : (matchCaseMarker e).isSome
      · simp only [if_pos hm] at h
        rw [Option.some_inj] at h
        subst h
        obtain ⟨⟨m, c, r⟩, hmc⟩ := Option.isSome_iff_exists.mp hm
        have hstep : ExportAnkiVocab.prepLoop [] ({} : ExportAnkiVocab.CaseVoiceGloss) (e :: es) =
            ExportAnkiVocab.prepLoop [] { Case := c, Marker := m, Gloss := trimSpace r } es := by
          simp only [ExportAnkiVocab.prepLoop, hmc, ExportAnkiVocab.pushPrep]
          rfl
        rw [hstep, vPrepLoop_markers es _ ((matchCaseMarker_eq hmc).2)]
        simp [List.filterMap_cons, hmc]
      · simp only [if_neg hm] at h
        exact absurd h (by simp)
  · intro l cg e es hm
    simp only [ExportAnkiVocab.prepLoop, hm]
  · intro l cg e es hm
    simp only [ExportAnkiVocab.voiceLoop, hm]
  · intro l cg e es hm
    simp only [ExportAnkiVocab.pluralLoop, hm, Bool.false_eq_true, if_false]
  · intro gloss
    unfold ExportAnkiVocab.parseVoiceGlosses
    exact voiceLoop_eq_inOrder (semiSplit gloss) {}
  · intro gloss
    unfold ExportAnkiVocab.parsePluralGlosses
    exact pluralLoop_eq_inOrder (semiSplit gloss) {}

/-- Witness for C5 as amended, at concrete inputs for each conjunct. -/
theorem C5_amended_witness :
    ([{ Case := gs "acc", Marker := gs "(+ acc.)", Gloss := gs "to; up" }] :
        List ExportAnkiVocab.CaseVoiceGloss).map (fun s => s.Marker) =
      (semiSplit (gs "(+ acc.) to; up")).filterMap
        (fun e => (matchCaseMarker e).map (fun x => x.1)) ∧
    ExportAnkiVocab.prepLoop [] { Case := gs "acc", Marker := gs "(+ acc.)", Gloss := gs "to" }
        [gs "up"] =
      ExportAnkiVocab.prepLoop []
        { Case := gs "acc", Marker := gs "(+ acc.)", Gloss := gs "to" ++ gs "; " ++ gs "up" } [] ∧
    ExportAnkiVocab.voiceLoop [] { Voice := gs "mid", Gloss := gs "a" } [gs "b"] =
      ExportAnkiVocab.voiceLoop []
        { Voice := gs "mid",
          Gloss := if (gs "a" : GoStr) = [] then gs "b" else gs "a" ++ gs "; " ++ gs "b" } [] ∧
    ExportAnkiVocab.pluralLoop [] { Plural := true, Gloss := gs "a" } [gs "b"] =
      ExportAnkiVocab.pluralLoop []
        { Plural := true,
          Gloss := if (gs "a" : GoStr) = [] then gs "b" else gs "a" ++ gs "; " ++ gs "b" } [] ∧
    ExportAnkiVocab.parseVoiceGlosses (gs "a; (mid.) b; (pass.) c") =
      voiceSegsInOrder {} (semiSplit (gs "a; (mid.) b; (pass.) c")) ∧
    ExportAnkiVocab.parsePluralGlosses (gs "word; (pl.) words") =
      pluralSegsInOrder {} (semiSplit (gs "word; (pl.) words")) :=
  ⟨C5_amended_order_and_separator.1 (gs "(+ acc.) to; up")
     [{ Case := gs "acc", Marker := gs "(+ acc.)", Gloss := gs "to; up" }] (by decide),
   C5_amended_order_and_separator.2.1 []
     { Case := gs "acc", Marker := gs "(+ acc.)", Gloss := gs "to" } (gs "up") [] (by decide),
   C5_amended_order_and_separator.2.2.1 [] { Voice := gs "mid", Gloss := gs "a" }
     (gs "b") [] (by decide),
   C5_amended_order_and_separator.2.2.2.1 [] { Plural := true, Gloss := gs "a" }
     (gs "b") [] (by decide),
   C5_amended_order_and_separator.2.2.2.2.1 (gs "a; (mid.) b; (pass.) c"),
   C5_amended_order_and_separator.2.2.2.2.2 (gs "word; (pl.) words")⟩

/-! ### Claim C6: fatal exits of exportVocab (duplicate ids, bad POS) -/

theorem processWord_ok_iff (u : ExportAnkiVocab.UnitVocab) (w : ExportAnkiVocab.Word)
    (idmap : List GoStr) :
    (∃ rows, ExportAnkiVocab.processWord u w idmap = .ok rows) ↔
      (ExportAnkiVocab.resolvedId w ∉ idmap ∧ (posLookup w.Pos).isSome ∧
        (ExportAnkiVocab.glossesOf w).isSome) := by
  unfold ExportAnkiVocab.processWord
  by_cases hid : ExportAnkiVocab.resolvedId w ∈ idmap
  · simp [List.elem_iff.mpr hid, hid]
  · have hcont : idmap.contains (ExportAnkiVocab.resolvedId w) = false := by
      cases hc : idmap.contains (ExportAnkiVocab.resolvedId w) with
      | true => exact absurd (List.elem_iff.mp hc) hid
      | false => rfl
    cases hp : posLookup w.Pos with
    | none => simp [hcont, hp, hid]
    | some pos =>
      cases hg : ExportAnkiVocab.glossesOf w with
      | none => simp [hcont, hp, hg, hid]
      | some glosses =>
        simp only [hcont, Bool.false_eq_true, if_false, hp, hg]
        constructor
        · intro
          exact ⟨hid, by simp, by simp⟩
        · intro
          split <;> exact ⟨_, rfl⟩

theorem wordsLoop_ok_then :
    ∀ (ws : List ExportAnkiVocab.Word) (u : ExportAnkiVocab.UnitVocab)
      (idmap : List GoStr) (count : Int) (rows : List (List GoStr))
      (idmap2 : List GoStr) (count2 : Int),
      ExportAnkiVocab.wordsLoop u ⟨0, 0⟩ ws idmap count = .ok (rows, idmap2, count2) →
      ((ws.map ExportAnkiVocab.resolvedId).Nodup ∧
        (∀ i ∈ ws.map ExportAnkiVocab.resolvedId, i ∉ idmap) ∧
        (∀ w ∈ ws, (posLookup w.Pos).isSome ∧ (ExportAnkiVocab.glossesOf w).isSome)) ∧
      idmap2 = (ws.map ExportAnkiVocab.resolvedId).reverse ++ idmap
  | [], u, idmap, count, rows, idmap2, count2 => by
    intro h
    simp only [ExportAnkiVocab.wordsLoop] at h
    cases h
    simp
  | w :: ws, u, idmap, count, rows, idmap2, count2 => by
    intro h
    simp only [ExportAnkiVocab.wordsLoop] at h
    cases hpw : ExportAnkiVocab.processWord u w idmap with
    | error e =>
      simp only [hpw] at h
      exact Except.noConfusion h
    | ok rows0 =>
      simp only [hpw] at h
      rw [if_neg (by simp)] at h
      cases hrec : ExportAnkiVocab.wordsLoop u ⟨0, 0⟩ ws
          (ExportAnkiVocab.resolvedId w :: idmap) (count + 1) with
      | error e =>
        simp only [hrec] at h
        exact Except.noConfusion h
      | ok t =>
        obtain ⟨rest, i3, c3⟩ := t
        simp only [hrec] at h
        cases h
        obtain ⟨⟨hnd, hnin, hconds⟩, heq⟩ :=
          wordsLoop_ok_then ws u (ExportAnkiVocab.resolvedId w :: idmap) (count + 1) _ _ _ hrec
        obtain ⟨hidnin, hpos, hglo⟩ := (processWord_ok_iff u w idmap).mp ⟨rows0, hpw⟩
        refine ⟨⟨?_, ?_, ?_⟩, ?_⟩
        · rw [List.map_cons, List.nodup_cons]
          refine ⟨fun hc => ?_, hnd⟩
          exact (hnin _ hc) (List.mem_cons_self _ _)
        · intro i hi
          rw [List.map_cons] at hi
          rcases List.mem_cons.mp hi with rfl | hi2
          · exact hidnin
          · exact fun hc => (hnin i hi2) (List.mem_cons_of_mem _ hc)
        · intro w2 hw2
          rcases List.mem_cons.mp hw2 with rfl | hw3
          · exact ⟨hpos, hglo⟩
          · exact hconds w2 hw3
        · rw [heq]
          simp [List.append_assoc]

theorem wordsLoop_ok_of :
    ∀ (ws : List ExportAnkiVocab.Word) (u : ExportAnkiVocab.UnitVocab)
      (idmap : List GoStr) (count : Int),
      (ws.map ExportAnkiVocab.resolvedId).Nodup →
      (∀ i ∈ ws.map ExportAnkiVocab.resolvedId, i ∉ idmap) →
      (∀ w ∈ ws, (posLookup w.Pos).isSome ∧ (ExportAnkiVocab.glossesOf w).isSome) →
      ∃ rows idmap2 count2,
        ExportAnkiVocab.wordsLoop u ⟨0, 0⟩ ws idmap count = .ok (rows, idmap2, count2)
  | [], u, idmap, count, _, _, _ => ⟨[], idmap, count, rfl⟩
  | w :: ws, u, idmap, count, hnd, hnin, hconds => by
    obtain ⟨rows0, hpw⟩ := (processWord_ok_iff u w idmap).mpr
      ⟨hnin _ (by simp), (hconds w (List.mem_cons_self _ _)).1,
       (hconds w (List.mem_cons_self _ _)).2⟩
    rw [List.map_cons, List.nodup_cons] at hnd
    obtain ⟨rest, i3, c3, hrec⟩ := wordsLoop_ok_of ws u
      (ExportAnkiVocab.resolvedId w :: idmap) (count + 1) hnd.2
      (fun i hi => by
        intro hc
        rcases List.mem_cons.mp hc with rfl | hc2
        · exact hnd.1 hi
        · exact hnin i (List.mem_cons_of_mem _ hi) hc2)
      (fun w2 hw2 => hconds w2 (List.mem_cons_of_mem _ hw2))
    refine ⟨rows0 ++ rest, i3, c3, ?_⟩
    simp only [ExportAnkiVocab.wordsLoop, hpw]
    rw [if_neg (by simp)]
    simp only [hrec]

theorem unitsLoop_ok_then :
    ∀ (us : List ExportAnkiVocab.UnitVocab) (idmap : List GoStr) (count : Int)
      (rows : List (List GoStr)),
      ExportAnkiVocab.unitsLoop ⟨0, 0⟩ us idmap count = .ok rows →
      (allIds us).Nodup ∧ (∀ i ∈ allIds us, i ∉ idmap) ∧
      (∀ u ∈ us, ∀ w ∈ u.Vocab, (posLookup w.Pos).isSome ∧ (ExportAnkiVocab.glossesOf w).isSome)
  | [], idmap, count, rows => by
    intro _
    simp [allIds]
  | u :: us, idmap, count, rows => by
    intro h
    simp only [ExportAnkiVocab.unitsLoop] at h
    rw [if_neg (by simp)] at h
    cases hwl : ExportAnkiVocab.wordsLoop u ⟨0, 0⟩ u.Vocab idmap count with
    | error e =>
      simp only [hwl] at h
      exact Except.noConfusion h
    | ok t =>
      obtain ⟨rows0, i2, c2⟩ := t
      simp only [hwl] at h
      cases hrec : ExportAnkiVocab.unitsLoop ⟨0, 0⟩ us i2 c2 with
      | error e =>
        simp only [hrec] at h
        exact Except.noConfusion h
      | ok rest =>
        obtain ⟨⟨hnd, hnin, hconds⟩, heq⟩ := wordsLoop_ok_then u.Vocab u idmap count _ _ _ hwl
        obtain ⟨hnd2, hnin2, hconds2⟩ := unitsLoop_ok_then us i2 c2 rest hrec
        have hids : allIds (u :: us) =
            u.Vocab.map ExportAnkiVocab.resolvedId ++ allIds us := by
          simp [allIds]
        refine ⟨?_, ?_, ?_⟩
        · rw [hids, List.nodup_append]
          refine ⟨hnd, hnd2, ?_⟩
          intro a ha hb
          have := hnin2 a hb
          rw [heq] at this
          exact this (List.mem_append_left _ (List.mem_reverse.mpr ha))
        · intro i hi
          rw [hids] at hi
          rcases List.mem_append.mp hi with hi1 | hi2
          · exact hnin i hi1
          · have := hnin2 i hi2
            rw [heq] at this
            exact fun hc => this (List.mem_append_right _ hc)
        · intro u2 hu2
          rcases List.mem_cons.mp hu2 with rfl | hu3
          · exact hconds
          · exact hconds2 u2 hu3

theorem unitsLoop_ok_of :
    ∀ (us : List ExportAnkiVocab.UnitVocab) (idmap : List GoStr) (count : Int),
      (allIds us).Nodup → (∀ i ∈ allIds us, i ∉ idmap) →
      (∀ u ∈ us, ∀ w ∈ u.Vocab,
        (posLookup w.Pos).isSome ∧ (ExportAnkiVocab.glossesOf w).isSome) →
      ∃ rows, ExportAnkiVocab.unitsLoop ⟨0, 0⟩ us idmap count = .ok rows
  | [], idmap, count, _, _, _ => ⟨[], rfl⟩
  | u :: us, idmap, count, hnd, hnin, hconds => by
    have hids : allIds (u :: us) = u.Vocab.map ExportAnkiVocab.resolvedId ++ allIds us := by
      simp [allIds]
    rw [hids, List.nodup_append] at hnd
    obtain ⟨hndu, hndus, hdisj⟩ := hnd
    obtain ⟨rows0, i2, c2, hwl⟩ := wordsLoop_ok_of u.Vocab u idmap count hndu
      (fun i hi => hnin i (by rw [hids]; exact List.mem_append_left _ hi))
      (hconds u (List.mem_cons_self _ _))
    have hi2 : i2 = (u.Vocab.map ExportAnkiVocab.resolvedId).reverse ++ idmap :=
      (wordsLoop_ok_then u.Vocab u idmap count _ _ _ hwl).2
    obtain ⟨rest, hrec⟩ := unitsLoop_ok_of us i2 c2 hndus
      (fun i hi => by
        rw [hi2]
        intro hc
        rcases List.mem_append.mp hc with hc1 | hc2
        · exact hdisj (List.mem_reverse.mp hc1) hi
        · exact hnin i (by rw [hids]; exact List.mem_append_right _ hi) hc2)
      (fun u2 hu2 => hconds u2 (List.mem_cons_of_mem _ hu2))
    refine ⟨rows0 ++ rest, ?_⟩
    simp only [ExportAnkiVocab.unitsLoop]
    rw [if_neg (by simp)]
    simp only [hwl, hrec]

/-- Counterexample to C6: a dataset whose single word has a unique id and the
recognised POS "prep", yet the export is fatal, because the preposition's
gloss "to" lacks a leading case marker — so "otherwise the word is exported
normally" does not hold as stated. -/
theorem C6_counterexample :
    ExportAnkiVocab.exportVocabRows
        [{ Name := gs "U", Unit := 5,
           Vocab := [{ Gr := gs "epi", En := gs "to", Pos := gs "prep" }] }] ⟨0, 0⟩ =
      .error (.badGloss (gs "to")) ∧
    (allIds [{ Name := gs "U", Unit := 5,
               Vocab := [{ Gr := gs "epi", En := gs "to", Pos := gs "prep" }] }]).Nodup ∧
    (posLookup (gs "prep")).isSome := by
  refine ⟨by rfl, by decide, by decide⟩

/-- C6 as amended: with default options the export succeeds (no fatal exit)
iff all resolved ids are distinct, every word's POS is one of the eight
recognised keys, AND every preposition's gloss segmentation succeeds;
a duplicate id or an unrecognised POS is always fatal, and so is a
malformed preposition gloss. -/
theorem C6_amended_export_fatal_iff (vocab : List ExportAnkiVocab.UnitVocab) :
    (∃ rows, ExportAnkiVocab.exportVocabRows vocab ⟨0, 0⟩ = .ok rows) ↔
      ((allIds vocab).Nodup ∧
        ∀ u ∈ vocab, ∀ w ∈ u.Vocab,
          (posLookup w.Pos).isSome ∧ (ExportAnkiVocab.glossesOf w).isSome) := by
  constructor
  · intro ⟨rows, h⟩
    obtain ⟨hnd, _, hconds⟩ := unitsLoop_ok_then vocab [] 1 rows h
    exact ⟨hnd, hconds⟩
  · intro ⟨hnd, hconds⟩
    exact unitsLoop_ok_of vocab [] 1 hnd (by simp) hconds

/-! ### Claim C7: what has been written when a run dies -/

/-- Counterexample to C7: on a dataset that dies on an unknown POS, the five
header comment lines HAVE already been written to the output destination
before the fatal exit (only the buffered CSV rows are lost), so "no header
comment lines have been written" is false. -/
theorem C7_counterexample :
    ExportAnkiVocab.exportVocabOutput
        [{ Name := gs "U", Unit := 5,
           Vocab := [{ Gr := gs "x", En := gs "hi", Pos := gs "xyz" }] }] ⟨0, 0⟩ =
      (headerLines, some (.badPos (gs "xyz") (gs "x") (gs "hi"))) ∧
    headerLines ≠ [] := by
  refine ⟨by rfl, by decide⟩

/-- C7 as amended: whenever a run fails on a malformed gloss, a duplicate id
or an unknown POS, the output destination holds exactly the header comment
lines at the fatal exit — the header lines have been written, and no CSV row
has been flushed. -/
theorem C7_amended_fatal_output_is_headers_only
    (vocab : List ExportAnkiVocab.UnitVocab) (opts : ExportAnkiVocab.Options)
    (e : ExportAnkiVocab.Fatal)
    (h : (ExportAnkiVocab.exportVocabOutput vocab opts).2 = some e) :
    (ExportAnkiVocab.exportVocabOutput vocab opts).1 = headerLines := by
  unfold ExportAnkiVocab.exportVocabOutput at h ⊢
  cases hr : ExportAnkiVocab.exportVocabRows vocab opts with
  | ok rows =>
    simp only [hr] at h
    exact Option.noConfusion h
  | error e2 => simp only [hr]

/-- Witness for C7 as amended at a concrete failing dataset. -/
theorem C7_amended_witness :
    (ExportAnkiVocab.exportVocabOutput
        [{ Name := gs "U", Unit := 5,
           Vocab := [{ Gr := gs "x", En := gs "hi", Pos := gs "xyz" }] }] ⟨0, 0⟩).2 =
      some (.badPos (gs "xyz") (gs "x") (gs "hi")) ∧
    (ExportAnkiVocab.exportVocabOutput
        [{ Name := gs "U", Unit := 5,
           Vocab := [{ Gr := gs "x", En := gs "hi", Pos := gs "xyz" }] }] ⟨0, 0⟩).1 =
      headerLines :=
  ⟨by rfl,
   C7_amended_fatal_output_is_headers_only
     [{ Name := gs "U", Unit := 5,
        Vocab := [{ Gr := gs "x", En := gs "hi", Pos := gs "xyz" }] }] ⟨0, 0⟩
     (.badPos (gs "xyz") (gs "x") (gs "hi")) (by rfl)⟩

/-! ### Claim C8: shape of a successful run's output -/

/-- Counterexample to C8: on a valid one-word dataset the output is the header
comment lines followed by the CSV row, and its last line is the CSV row — not
a JSON stats line (the stats map of the vocab exporter is never populated, so
the trailing JSON stats line is never emitted). -/
theorem C8_counterexample :
    ExportAnkiVocab.runCLIOutput
        [{ Name := gs "Unit One", Unit := 5,
           Vocab := [{ Gr := gs "x", En := gs "hello", Pos := gs "n" }] }] ⟨0, 0⟩ =
      (headerLines ++
        [gs "x,x,hello,pos::noun,Mastronarde Attic Greek Vocab (Greek-to-English)::Unit One"],
       none) ∧
    (headerLines ++
        [gs "x,x,hello,pos::noun,Mastronarde Attic Greek Vocab (Greek-to-English)::Unit One"]).getLast? =
      some (gs "x,x,hello,pos::noun,Mastronarde Attic Greek Vocab (Greek-to-English)::Unit One") ∧
    (gs "x,x,hello,pos::noun,Mastronarde Attic Greek Vocab (Greek-to-English)::Unit One").head? ≠
      some '{' := by
  refine ⟨by rfl, by rfl, by decide⟩

/-- C8 as amended: a successful run's output is exactly the header comment
lines followed by the CSV rows; no trailing JSON stats line is emitted,
because the stats map is never populated (its only write is commented out)
and the stats line is printed only when the map is nonempty. -/
theorem C8_amended_output_headers_then_rows
    (vocab : List ExportAnkiVocab.UnitVocab) (opts : ExportAnkiVocab.Options)
    (rows : List (List GoStr))
    (h : ExportAnkiVocab.exportVocabRows vocab opts = .ok rows) :
    ExportAnkiVocab.runCLIOutput vocab opts = (headerLines ++ rows.map csvLine, none) := by
  unfold ExportAnkiVocab.runCLIOutput ExportAnkiVocab.exportVocabOutput
  simp only [h]
  rw [if_neg (by simp)]

/-- Witness for C8 as amended at a concrete valid dataset. -/
theorem C8_amended_witness :
    ExportAnkiVocab.exportVocabRows
        [{ Name := gs "Unit One", Unit := 5,
           Vocab := [{ Gr := gs "x", En := gs "hello", Pos := gs "n" }] }] ⟨0, 0⟩ =
      .ok [[gs "x", gs "x", gs "hello", gs "pos::noun",
            deckNameGrEn ++ gs "::" ++ gs "Unit One"]] ∧
    ExportAnkiVocab.runCLIOutput
        [{ Name := gs "Unit One", Unit := 5,
           Vocab := [{ Gr := gs "x", En := gs "hello", Pos := gs "n" }] }] ⟨0, 0⟩ =
      (headerLines ++
        [[gs "x", gs "x", gs "hello", gs "pos::noun",
          deckNameGrEn ++ gs "::" ++ gs "Unit One"]].map csvLine, none) :=
  ⟨by rfl,
   C8_amended_output_headers_then_rows
     [{ Name := gs "Unit One", Unit := 5,
        Vocab := [{ Gr := gs "x", En := gs "hello", Pos := gs "n" }] }] ⟨0, 0⟩
     [[gs "x", gs "x", gs "hello", gs "pos::noun",
       deckNameGrEn ++ gs "::" ++ gs "Unit One"]] (by rfl)⟩

/-! ### Claim C9: relating the two parsePrepGlosses variants -/

theorem prepLoops_rel :
    ∀ (es : List GoStr) (cgv : ExportAnkiVocab.CaseVoiceGloss) (cga : ExportToAnki.CaseGloss)
      (lv : List ExportAnkiVocab.CaseVoiceGloss) (la : List ExportToAnki.CaseGloss),
      List.Forall₂ SegRel lv la →
      cgv.Case = cga.Case → cgv.Marker = cga.Marker →
      (cgv.Case ≠ [] →
        ∃ r t, cga.Gloss = cga.Marker ++ r ++ t ∧ cgv.Gloss = trimSpace r ++ t) →
      List.Forall₂ SegRel (ExportAnkiVocab.prepLoop lv cgv es) (ExportToAnki.prepLoop la cga es)
  | [], cgv, cga, lv, la, hl, hcase, hmark, hrel => by
    simp only [ExportAnkiVocab.prepLoop, ExportToAnki.prepLoop,
      ExportAnkiVocab.pushPrep, ExportToAnki.pushPrep]
    by_cases hc : cgv.Case ≠ []
    · rw [if_pos hc, if_pos (hcase ▸ hc)]
      exact List.rel_append hl (List.Forall₂.cons ⟨hcase, hmark, hrel hc⟩ List.Forall₂.nil)
    · rw [if_neg hc, if_neg (hcase ▸ hc)]
      exact hl
  | e :: es, cgv, cga, lv, la, hl, hcase, hmark, hrel => by
    cases hm : matchCaseMarker e with
    | none =>
      simp only [ExportAnkiVocab.prepLoop, ExportToAnki.prepLoop, hm]
      refine prepLoops_rel es _ _ lv la hl hcase hmark ?_
      intro hc
      obtain ⟨r, t, ha, hv⟩ := hrel hc
      refine ⟨r, t ++ gs "; " ++ e, ?_, ?_⟩
      · simp only [ha]
        simp [List.append_assoc]
      · simp only [hv]
        simp [List.append_assoc]
    | some mcr =>
      obtain ⟨m, c, r⟩ := mcr
      have he : e = m ++ r := (matchCaseMarker_eq hm).1
      simp only [ExportAnkiVocab.prepLoop, ExportToAnki.prepLoop, hm,
        ExportAnkiVocab.pushPrep, ExportToAnki.pushPrep]
      have hpush : List.Forall₂ SegRel
          (if cgv.Case ≠ [] then lv ++ [cgv] else lv)
          (if cga.Case ≠ [] then la ++ [cga] else la) := by
        by_cases hc : cgv.Case ≠ []
        · rw [if_pos hc, if_pos (hcase ▸ hc)]
          exact List.rel_append hl (List.Forall₂.cons ⟨hcase, hmark, hrel hc⟩ List.Forall₂.nil)
        · rw [if_neg hc, if_neg (hcase ▸ hc)]
          exact hl
      refine prepLoops_rel es _ _ _ _ hpush rfl rfl ?_
      intro _
      exact ⟨r, [], by simp [he], by simp⟩

/-- Counterexample to C9: on the gloss "(+ acc.) to " (with a trailing
space), the export_to_anki variant's Gloss is the whole entry while the
export_anki_vocab variant's Gloss is "to" — removing the leading case marker
and its adjacent whitespace from the former yields "to ", not "to": the
variants also differ by the TrimSpace of the remainder's trailing
whitespace. -/
theorem C9_counterexample :
    ExportToAnki.parsePrepGlosses (gs "(+ acc.) to ") =
      some [{ Case := gs "acc", Marker := gs "(+ acc.)", Gloss := gs "(+ acc.) to " }] ∧
    ExportAnkiVocab.parsePrepGlosses (gs "(+ acc.) to ") =
      some [{ Case := gs "acc", Marker := gs "(+ acc.)", Gloss := gs "to" }] ∧
    dropW isWhiteSpace ((gs "(+ acc.) to ").drop (gs "(+ acc.)").length) = gs "to " ∧
    gs "to " ≠ gs "to" := by
  refine ⟨by rfl, by rfl, by rfl, by decide⟩

/-- C9 as amended: on every gloss the two `parsePrepGlosses` variants either
both fail or both succeed with segment lists of equal length whose segments
agree pointwise on Case and Marker and group the clauses identically; the
export_anki_vocab variant's Gloss differs from the export_to_anki one only by
removing the head clause's marker prefix and applying Go strings.TrimSpace to
the head clause's remainder (trimming the whitespace adjacent to the marker
AND any trailing whitespace of that remainder). -/
theorem C9_amended_variants_rel (gloss : GoStr) :
    (ExportAnkiVocab.parsePrepGlosses gloss = none ∧
      ExportToAnki.parsePrepGlosses gloss = none) ∨
    (∃ lv la, ExportAnkiVocab.parsePrepGlosses gloss = some lv ∧
      ExportToAnki.parsePrepGlosses gloss = some la ∧ List.Forall₂ SegRel lv la) := by
  unfold ExportAnkiVocab.parsePrepGlosses ExportToAnki.parsePrepGlosses
  cases hsp : semiSplit gloss with
  | nil => exact Or.inr ⟨[], [], rfl, rfl, List.Forall₂.nil⟩
  | cons e es =>
    dsimp only
    by_cases hm : (matchCaseMarker e).isSome
    · rw [if_pos hm, if_pos hm]
      refine Or.inr ⟨_, _, rfl, rfl, ?_⟩
      exact prepLoops_rel (e :: es) {} {} [] [] List.Forall₂.nil rfl rfl
        (fun hc => absurd rfl hc)
    · rw [if_neg hm, if_neg hm]
      exact Or.inl ⟨rfl, rfl⟩

/-! ### Claim C10: the single-row branch of exportVocab -/

/-- Counterexample to C10: in export_anki_vocab, a word with fewer than two
segments gets a single row, but its back text is NOT the unmodified En field:
the `reSemicolonParenthesis` replacement rewrites "a; (b)" to "a<br>(b)". -/
theorem C10_counterexample :
    ExportAnkiVocab.processWord { Name := gs "U" }
        { Gr := gs "x", En := gs "a; (b)", Pos := gs "n" } [] =
      .ok [[gs "x", gs "x", gs "a<br>(b)", gs "pos::noun",
            deckNameGrEn ++ gs "::" ++ gs "U"]] ∧
    gs "a<br>(b)" ≠ gs "a; (b)" := by
  refine ⟨by rfl, by decide⟩

/-- C10 as amended: when gloss parsing yields fewer than two segments, both
exporters discard the segments and write exactly one row; in export_to_anki
the back text is the unmodified En field plus the en_ext and cog suffixes,
while in export_anki_vocab the En field first has every
semicolon-before-parenthesis separator rewritten to "<br>(". -/
theorem C10_amended_single_row_branch :
    (∀ (u : ExportAnkiVocab.UnitVocab) (w : ExportAnkiVocab.Word) (idmap : List GoStr)
        (pos : GoStr) (glosses : List ExportAnkiVocab.CaseVoiceGloss),
      idmap.contains (ExportAnkiVocab.resolvedId w) = false →
      posLookup w.Pos = some pos →
      ExportAnkiVocab.glossesOf w = some glosses →
      glosses.length ≤ 1 →
      ExportAnkiVocab.processWord u w idmap =
        .ok [[ExportAnkiVocab.resolvedId w, ExportAnkiVocab.frontOf w,
          (semiParenRepl w.En ++
            (if w.EnExt ≠ [] then gs "<br><i>" ++ w.EnExt ++ gs "</i>" else [])) ++
          (if w.Cog ≠ [] then gs "<br>[" ++ w.Cog ++ gs "]" else []),
          gs "pos::" ++ pos, ExportAnkiVocab.deckOf u]]) ∧
    (∀ (uName : GoStr) (w : ExportToAnki.Word) (idmap : List GoStr)
        (pos : GoStr) (glosses : List ExportToAnki.CaseGloss),
      idmap.contains (ExportToAnki.resolvedId w) = false →
      posLookup w.Pos = some pos →
      (if w.Pos = gs "prep" then ExportToAnki.parsePrepGlosses w.En else some []) =
        some glosses →
      glosses.length ≤ 1 →
      ExportToAnki.processWord uName w idmap =
        .ok [[ExportToAnki.resolvedId w, ExportToAnki.frontOf w,
          (w.En ++ (if w.EnExt ≠ [] then gs "<br><i>" ++ w.EnExt ++ gs "</i>" else [])) ++
          (if w.Cog ≠ [] then gs "<br>[" ++ w.Cog ++ gs "]" else []),
          gs "pos::" ++ pos, deckNameGrEn ++ gs "::" ++ uName]]) := by
  constructor
  · intro u w idmap pos glosses hcont hpos hglo hlen
    unfold ExportAnkiVocab.processWord
    simp only [hcont, Bool.false_eq_true, if_false, hpos, hglo]
    rw [if_neg (by omega)]
    simp [ExportAnkiVocab.singleRowBack]
  · intro uName w idmap pos glosses hcont hpos hglo hlen
    unfold ExportToAnki.processWord
    simp only [hcont, Bool.false_eq_true, if_false, hpos, hglo]
    rw [if_neg (by omega)]
    simp [ExportToAnki.singleRowBack]

/-- Witness for C10 as amended, at one-segment preposition words. -/
theorem C10_amended_witness :
    ExportAnkiVocab.processWord { Name := gs "U" }
        { Gr := gs "ek", En := gs "(+ gen.) out of", Pos := gs "prep" } [] =
      .ok [[gs "ek", gs "ek",
        (semiParenRepl (gs "(+ gen.) out of") ++
          (if (gs "" : GoStr) ≠ [] then gs "<br><i>" ++ gs "" ++ gs "</i>" else [])) ++
        (if (gs "" : GoStr) ≠ [] then gs "<br>[" ++ gs "" ++ gs "]" else []),
        gs "pos::" ++ gs "preposition",
        ExportAnkiVocab.deckOf { Name := gs "U" }]] ∧
    ExportToAnki.processWord (gs "U")
        { Gr := gs "ek", En := gs "(+ gen.) out of", Pos := gs "prep" } [] =
      .ok [[gs "ek", gs "ek",
        (gs "(+ gen.) out of" ++
          (if (gs "" : GoStr) ≠ [] then gs "<br><i>" ++ gs "" ++ gs "</i>" else [])) ++
        (if (gs "" : GoStr) ≠ [] then gs "<br>[" ++ gs "" ++ gs "]" else []),
        gs "pos::" ++ gs "preposition", deckNameGrEn ++ gs "::" ++ gs "U"]] :=
  ⟨C10_amended_single_row_branch.1 { Name := gs "U" }
     { Gr := gs "ek", En := gs "(+ gen.) out of", Pos := gs "prep" } []
     (gs "preposition")
     [{ Case := gs "gen", Marker := gs "(+ gen.)", Gloss := gs "out of" }]
     (by rfl) (by rfl) (by rfl) (by decide),
   C10_amended_single_row_branch.2 (gs "U")
     { Gr := gs "ek", En := gs "(+ gen.) out of", Pos := gs "prep" } []
     (gs "preposition")
     [{ Case := gs "gen", Marker := gs "(+ gen.)", Gloss := gs "(+ gen.) out of" }]
     (by rfl) (by rfl) (by rfl) (by decide)⟩
